import Mathlib

/-
Verification of the page-boundary discovery engine of `amocrm-go-v4`
(`amocrm/pagination.go`).

Modelling conventions for the shallow embedding:
* Go `int` is modelled as `Int`; every arithmetic operation performed by the
  engine on reachable inputs stays far below 64-bit overflow, so unbounded
  integers are faithful there.
* Go integer division truncates toward zero; Lean's `/` on `Int` is Euclidean
  division.  Every division in the engine (`upperBound/2`, `(right-left)/2`,
  `(right-left)/3`, `2*(right-left)/3`) is applied to a non-negative numerator
  at every reachable call site, where the two conventions coincide.
* `context.Context` is modelled as a constant `cancelled : Bool` flag, read at
  exactly the `select { case <-ctx.Done() ... }` sites of the source; a
  `PageChecker` is a deterministic function `Int → Except ε Bool`, where
  `.ok b` models the Go return `(b, nil)` and `.error e` models a non-nil
  error (the Go callers never read the boolean of an errored probe).
* Every engine function additionally returns the list of pages it passed to
  the checker, in call order, so that probe-count and ceiling-respect
  properties can be stated; the first component is exactly the Go return
  value.
-/

namespace AmoPagination

variable {ε : Type}

/-- Errors produced by the engine: a probe's own error (`err` returned by the
checker), `ctx.Err()` from a cancelled context, and wrapping by
`fmt.Errorf("<msg>: %w", inner)`. -/
inductive GoError (ε : Type) where
  | probe (e : ε)
  | ctxErr
  | wrap (msg : String) (inner : GoError ε)
deriving DecidableEq

/-- `PageChecker` (pagination.go:10): checks whether a page has data. -/
abbrev PageChecker (ε : Type) := Int → Except ε Bool

/-- Result of an engine function: the Go `(int, error)` return value paired
with the trace of pages probed, in order. -/
abbrev FindRes (ε : Type) := Except (GoError ε) Int × List Int

/-- Ceiling normalization (pagination.go:44-46 and 129-131): a non-positive
`maxPage` defaults to 100000. -/
def normCeil (maxPage : Int) : Int := if maxPage ≤ 0 then 100000 else maxPage

/-- The probe target of one exponential-growth step (pagination.go:77-80):
`nextPage := page * 2`, clamped down to `maxPage`. -/
def nextProbe (maxPage page : Int) : Int :=
  if page * 2 > maxPage then maxPage else page * 2

/-- The `mid` of one binary-search step (pagination.go:108). -/
def midpoint (left right : Int) : Int := left + (right - left) / 2

/-- `mid1` of one ternary round (pagination.go:212). -/
def tMid1 (left right : Int) : Int := left + (right - left) / 3

/-- `mid2` of one ternary round (pagination.go:213). -/
def tMid2 (left right : Int) : Int := left + 2 * (right - left) / 3

/-- The loop of `findUpperBound` (pagination.go:74-95).  `page` is the Go loop
variable; the call site always passes `page = 1`, and the hypothesis
`1 ≤ page` records that (for `page ≤ 0` the Go loop need not terminate, so a
total model requires the reachability hypothesis). -/
def findUpperBoundAux (checker : PageChecker ε) (maxPage page : Int)
    (hp : 1 ≤ page) : FindRes ε :=
  if h : page < maxPage then
    match checker (nextProbe maxPage page) with
    | .error e => (.error (.probe e), [nextProbe maxPage page])
    | .ok hasData =>
      if hasData then
        ((findUpperBoundAux checker maxPage (nextProbe maxPage page)
            (by simp only [nextProbe]; split <;> omega)).1,
         nextProbe maxPage page ::
           (findUpperBoundAux checker maxPage (nextProbe maxPage page)
             (by simp only [nextProbe]; split <;> omega)).2)
      else (.ok (nextProbe maxPage page), [nextProbe maxPage page])
  else (.ok maxPage, [])
termination_by (maxPage - page).toNat
decreasing_by
  all_goals simp only [nextProbe] at *
  all_goals split <;> omega

/-- `findUpperBound` (pagination.go:74): exponential search from `page = 1`. -/
def findUpperBound (checker : PageChecker ε) (maxPage : Int) : FindRes ε :=
  findUpperBoundAux checker maxPage 1 (by omega)

/-- The loop of `binarySearch` (pagination.go:101-121), carrying
`lastValidPage` (initialized to `left` by the wrapper below).  The
cancellation `select` is sampled at the top of each iteration. -/
def binarySearchGo (checker : PageChecker ε) (cancelled : Bool)
    (lastValidPage left right : Int) : FindRes ε :=
  if _h : left ≤ right then
    if cancelled then (.error .ctxErr, [])
    else
      match checker (midpoint left right) with
      | .error e => (.error (.probe e), [midpoint left right])
      | .ok hasData =>
        if hasData then
          ((binarySearchGo checker cancelled (midpoint left right)
              (midpoint left right + 1) right).1,
           midpoint left right ::
             (binarySearchGo checker cancelled (midpoint left right)
               (midpoint left right + 1) right).2)
        else
          ((binarySearchGo checker cancelled lastValidPage left
              (midpoint left right - 1)).1,
           midpoint left right ::
             (binarySearchGo checker cancelled lastValidPage left
               (midpoint left right - 1)).2)
  else (.ok lastValidPage, [])
termination_by (right + 1 - left).toNat
decreasing_by
  all_goals simp only [midpoint] at *
  all_goals omega

/-- `binarySearch` (pagination.go:98-124): `lastValidPage := left`. -/
def binarySearch (checker : PageChecker ε) (cancelled : Bool)
    (left right : Int) : FindRes ε :=
  binarySearchGo checker cancelled left left right

/-- `FindTotalPages` (pagination.go:43-71): page-1 check, exponential growth,
then binary search of `(upperBound/2, upperBound)`; each phase's error is
wrapped with that phase's message. -/
def FindTotalPages (checker : PageChecker ε) (cancelled : Bool)
    (maxPage : Int) : FindRes ε :=
  match checker 1 with
  | .error e => (.error (.wrap "failed to check page 1" (.probe e)), [1])
  | .ok hasData =>
    if hasData then
      match findUpperBound checker (normCeil maxPage) with
      | (.error e, tr) => (.error (.wrap "failed to find upper bound" e), 1 :: tr)
      | (.ok upperBound, tr) =>
        if upperBound = normCeil maxPage then (.ok (normCeil maxPage), 1 :: tr)
        else
          match binarySearch checker cancelled (upperBound / 2) upperBound with
          | (.error e, tr2) => (.error (.wrap "binary search failed" e), 1 :: tr ++ tr2)
          | (.ok lastPage, tr2) => (.ok lastPage, 1 :: tr ++ tr2)
    else (.ok 0, [1])

/-- The loop of `findUpperBoundConcurrent` (pagination.go:159-186); the
source duplicates the body of `findUpperBound` verbatim. -/
def findUpperBoundConcurrentAux (checker : PageChecker ε) (maxPage page : Int)
    (hp : 1 ≤ page) : FindRes ε :=
  if h : page < maxPage then
    match checker (nextProbe maxPage page) with
    | .error e => (.error (.probe e), [nextProbe maxPage page])
    | .ok hasData =>
      if hasData then
        ((findUpperBoundConcurrentAux checker maxPage (nextProbe maxPage page)
            (by simp only [nextProbe]; split <;> omega)).1,
         nextProbe maxPage page ::
           (findUpperBoundConcurrentAux checker maxPage (nextProbe maxPage page)
             (by simp only [nextProbe]; split <;> omega)).2)
      else (.ok (nextProbe maxPage page), [nextProbe maxPage page])
  else (.ok maxPage, [])
termination_by (maxPage - page).toNat
decreasing_by
  all_goals simp only [nextProbe] at *
  all_goals split <;> omega

/-- `findUpperBoundConcurrent` (pagination.go:159). -/
def findUpperBoundConcurrent (checker : PageChecker ε) (maxPage : Int) :
    FindRes ε :=
  findUpperBoundConcurrentAux checker maxPage 1 (by omega)

/-- The inner linear-scan loop of `binarySearchConcurrent`
(pagination.go:200-209): scan from `page = right` down to `left`, returning
the first page with data, else `lastValidPage`. -/
def linearScan (checker : PageChecker ε) (left lastValidPage page : Int) :
    FindRes ε :=
  if _h : left ≤ page then
    match checker page with
    | .error e => (.error (.probe e), [page])
    | .ok hasData =>
      if hasData then (.ok page, [page])
      else
        ((linearScan checker left lastValidPage (page - 1)).1,
         page :: (linearScan checker left lastValidPage (page - 1)).2)
  else (.ok lastValidPage, [])
termination_by (page + 1 - left).toNat
decreasing_by omega

/-- The loop of `binarySearchConcurrent` (pagination.go:192-260): cancellation
check, linear-scan fallback for windows of width ≤ 3, otherwise a ternary
round probing `mid1` and `mid2` (concurrently in Go; modelled in launch
order — when both probes error, Go returns whichever goroutine's error lands
in the channel first, modelled here as `mid1`'s). -/
def binarySearchConcurrentGo (checker : PageChecker ε) (cancelled : Bool)
    (lastValidPage left right : Int) : FindRes ε :=
  if _h : left ≤ right then
    if cancelled then (.error .ctxErr, [])
    else if right - left ≤ 3 then
      linearScan checker left lastValidPage right
    else
      match checker (tMid1 left right), checker (tMid2 left right) with
      | .error e, _ => (.error (.probe e), [tMid1 left right, tMid2 left right])
      | .ok _, .error e => (.error (.probe e), [tMid1 left right, tMid2 left right])
      | .ok mid1HasData, .ok mid2HasData =>
        if mid2HasData then
          ((binarySearchConcurrentGo checker cancelled (tMid2 left right)
              (tMid2 left right + 1) right).1,
           tMid1 left right :: tMid2 left right ::
             (binarySearchConcurrentGo checker cancelled (tMid2 left right)
               (tMid2 left right + 1) right).2)
        else if mid1HasData then
          ((binarySearchConcurrentGo checker cancelled (tMid1 left right)
              (tMid1 left right + 1) (tMid2 left right - 1)).1,
           tMid1 left right :: tMid2 left right ::
             (binarySearchConcurrentGo checker cancelled (tMid1 left right)
               (tMid1 left right + 1) (tMid2 left right - 1)).2)
        else
          ((binarySearchConcurrentGo checker cancelled lastValidPage left
              (tMid1 left right - 1)).1,
           tMid1 left right :: tMid2 left right ::
             (binarySearchConcurrentGo checker cancelled lastValidPage left
               (tMid1 left right - 1)).2)
  else (.ok lastValidPage, [])
termination_by (right + 1 - left).toNat
decreasing_by
  all_goals simp only [tMid1, tMid2] at *
  all_goals omega

/-- `binarySearchConcurrent` (pagination.go:189-263). -/
def binarySearchConcurrent (checker : PageChecker ε) (cancelled : Bool)
    (left right : Int) : FindRes ε :=
  binarySearchConcurrentGo checker cancelled left left right

/-- `FindTotalPagesConcurrent` (pagination.go:128-156). -/
def FindTotalPagesConcurrent (checker : PageChecker ε) (cancelled : Bool)
    (maxPage : Int) : FindRes ε :=
  match checker 1 with
  | .error e => (.error (.wrap "failed to check page 1" (.probe e)), [1])
  | .ok hasData =>
    if hasData then
      match findUpperBoundConcurrent checker (normCeil maxPage) with
      | (.error e, tr) => (.error (.wrap "failed to find upper bound" e), 1 :: tr)
      | (.ok upperBound, tr) =>
        if upperBound = normCeil maxPage then (.ok (normCeil maxPage), 1 :: tr)
        else
          match binarySearchConcurrent checker cancelled (upperBound / 2) upperBound with
          | (.error e, tr2) => (.error (.wrap "binary search failed" e), 1 :: tr ++ tr2)
          | (.ok lastPage, tr2) => (.ok lastPage, 1 :: tr ++ tr2)
    else (.ok 0, [1])

/-- `Link` (types.go): a single pagination link. -/
structure Link where
  Href : String
deriving DecidableEq

/-- `Links` (types.go): entity links. -/
structure Links where
  Self : Link
  Next : Link
  Prev : Link
deriving DecidableEq

/-- `CreatePageChecker` (pagination.go:277-286), modelled at the level of Go
multiple-return pairs: the fetcher returns `(Links, error)` and the built
checker returns `(bool, error)`, where `none` is a nil error. -/
def CreatePageChecker (fetcher : Int → Links × Option ε) :
    Int → Bool × Option ε :=
  fun page =>
    match fetcher page with
    | (_, some e) => (false, some e)
    | (links, none) => (links.Self.Href != "", none)

/-- An error-free checker built from a boolean page predicate. -/
def okChecker (hasData : Int → Bool) : PageChecker ε :=
  fun page => .ok (hasData page)

/-- The monotone-probe contract of the spec (§3): once a page is empty, every
later page is empty; equivalently data at `q` implies data at every `p ≤ q`. -/
def MonotoneProbe (hasData : Int → Bool) : Prop :=
  ∀ p q : Int, 1 ≤ p → p ≤ q → hasData q = true → hasData p = true

/-- The probe of spec §8: `hasData(page) = page ≤ n`. -/
def boundaryProbe (n : Int) : Int → Bool := fun page => decide (page ≤ n)

/-- Reference answer of the spec's binary-search description (§4.1 step 3):
the largest page of `[left, right]` with data, or `lastValidPage` when the
window contains no data.  Stated by scanning from the top; this definition
follows the spec's words, not the source, and both searches are proved to
refine it below. -/
def specBoundary (hasData : Int → Bool) (lastValidPage left right : Int) : Int :=
  if left ≤ right then
    if hasData right then right
    else specBoundary hasData lastValidPage left (right - 1)
  else lastValidPage
termination_by (right + 1 - left).toNat
decreasing_by omega

/-- Every probe of the trace `tr` returned a nil error. -/
def probesOk (checker : PageChecker ε) (tr : List Int) : Prop :=
  ∀ p ∈ tr, ∃ b, checker p = .ok b

/-- A checker that has data below page `k` and fails from page `k` on. -/
def probeFailFrom (k : Int) : PageChecker Unit :=
  fun page => if page < k then .ok true else .error ()

/- ---------------------------------------------------------------------- -/
/- Shared lemmas.                                                          -/
/- ---------------------------------------------------------------------- -/

theorem normCeil_pos (c : Int) : 1 ≤ normCeil c := by
  unfold normCeil; split <;> omega

theorem boundaryProbe_monotone (n : Int) : MonotoneProbe (boundaryProbe n) := by
  intro p q _ hpq hq
  simp only [boundaryProbe, decide_eq_true_eq] at hq ⊢
  omega

/-- Recording a page with data inside the window moves the spec answer's
window past it. -/
theorem specBoundary_found (hd : Int → Bool) (lv l m r : Int)
    (hm : hd m = true) (hlm : l ≤ m) (hmr : m ≤ r) :
    specBoundary hd lv l r = specBoundary hd m (m + 1) r := by
  rw [specBoundary.eq_def]
  rw [if_pos (by omega : l ≤ r)]
  by_cases hhr : hd r = true
  · rw [if_pos hhr]
    rw [specBoundary.eq_def]
    by_cases h2 : m + 1 ≤ r
    · rw [if_pos h2, if_pos hhr]
    · rw [if_neg h2]; omega
  · have hhr' : hd r = false := by
      cases h : hd r
      · rfl
      · exact absurd h hhr
    rw [if_neg (by simp [hhr'])]
    have hne : m ≤ r - 1 := by
      rcases lt_or_eq_of_le hmr with hlt | he
      · omega
      · rw [he] at hm; rw [hm] at hhr'; cases hhr'
    rw [specBoundary_found hd lv l m (r - 1) hm hlm hne]
    conv_rhs => rw [specBoundary.eq_def]
    rw [if_pos (by omega : m + 1 ≤ r), if_neg (by simp [hhr'])]
termination_by (r + 1 - l).toNat
decreasing_by omega

/-- A positive page without data trims the spec answer's window below it
(needs monotonicity). -/
theorem specBoundary_trim (hd : Int → Bool) (hmono : MonotoneProbe hd)
    (lv l m r : Int) (hm1 : 1 ≤ m) (hm : hd m = false) (hmr : m ≤ r) :
    specBoundary hd lv l r = specBoundary hd lv l (m - 1) := by
  by_cases hlr : l ≤ r
  · rw [specBoundary.eq_def, if_pos hlr]
    have hhr : hd r = false := by
      cases h : hd r
      · rfl
      · have := hmono m r hm1 hmr h
        rw [this] at hm; cases hm
    rw [if_neg (by simp [hhr])]
    by_cases hmr' : m ≤ r - 1
    · exact specBoundary_trim hd hmono lv l m (r - 1) hm1 hm hmr'
    · have : r - 1 = m - 1 := by omega
      rw [this]
  · rw [specBoundary.eq_def, if_neg hlr]
    rw [specBoundary.eq_def, if_neg (by omega : ¬ l ≤ m - 1)]
termination_by (r + 1 - l).toNat
decreasing_by omega

/-- On the boundary probe of §8, the spec answer of any window containing
`n` is exactly `n`. -/
theorem specBoundary_boundary (n lv l r : Int) (hln : l ≤ n) (hnr : n ≤ r) :
    specBoundary (boundaryProbe n) lv l r = n := by
  rw [specBoundary.eq_def, if_pos (by omega : l ≤ r)]
  by_cases h : r ≤ n
  · rw [if_pos (by simp only [boundaryProbe, decide_eq_true_eq]; omega)]
    omega
  · rw [if_neg (by simp only [boundaryProbe, decide_eq_true_eq]; omega)]
    exact specBoundary_boundary n lv l (r - 1) hln (by omega)
termination_by (r + 1 - l).toNat
decreasing_by omega

/-- The linear-scan fallback computes the spec answer of its window (it scans
from the top exactly as the spec's description does). -/
theorem linearScan_spec (hd : Int → Bool) (l lv p : Int) :
    (linearScan (okChecker hd) l lv p : FindRes ε).1 =
      .ok (specBoundary hd lv l p) := by
  rw [linearScan.eq_def, specBoundary.eq_def]
  by_cases hlp : l ≤ p
  · rw [dif_pos hlp, if_pos hlp]
    cases hdp : hd p
    · simp only [okChecker, hdp, Bool.false_eq_true, if_false]
      exact linearScan_spec hd l lv (p - 1)
    · simp only [okChecker, hdp, if_true]
  · rw [dif_neg hlp, if_neg hlp]
termination_by (p + 1 - l).toNat
decreasing_by omega

/-- On an error-free monotone probe and a live context, the sequential
binary-search loop returns the spec answer of its window. -/
theorem binarySearchGo_spec (hd : Int → Bool) (hmono : MonotoneProbe hd)
    (lv l r : Int) (hl : 1 ≤ l) :
    (binarySearchGo (okChecker hd) false lv l r : FindRes ε).1 =
      .ok (specBoundary hd lv l r) := by
  by_cases hlr : l ≤ r
  · rw [binarySearchGo.eq_def, dif_pos hlr, if_neg Bool.false_ne_true]
    have hmid : l ≤ midpoint l r ∧ midpoint l r ≤ r := by
      unfold midpoint; omega
    cases hdm : hd (midpoint l r)
    · simp only [okChecker, hdm, Bool.false_eq_true, if_false]
      rw [specBoundary_trim hd hmono lv l (midpoint l r) r (by omega) hdm hmid.2]
      exact binarySearchGo_spec hd hmono lv l (midpoint l r - 1) hl
    · simp only [okChecker, hdm, if_true]
      rw [specBoundary_found hd lv l (midpoint l r) r hdm hmid.1 hmid.2]
      exact binarySearchGo_spec hd hmono (midpoint l r) (midpoint l r + 1) r
        (by omega)
  · rw [binarySearchGo.eq_def, dif_neg hlr, specBoundary.eq_def, if_neg hlr]
termination_by (r + 1 - l).toNat
decreasing_by
  all_goals simp only [midpoint] at *
  all_goals omega

/-- On an error-free monotone probe and a live context, the concurrent
ternary loop also returns the spec answer of its window. -/
theorem binarySearchConcurrentGo_spec (hd : Int → Bool)
    (hmono : MonotoneProbe hd) (lv l r : Int) (hl : 1 ≤ l) :
    (binarySearchConcurrentGo (okChecker hd) false lv l r : FindRes ε).1 =
      .ok (specBoundary hd lv l r) := by
  by_cases hlr : l ≤ r
  · rw [binarySearchConcurrentGo.eq_def, dif_pos hlr, if_neg Bool.false_ne_true]
    by_cases hw : r - l ≤ 3
    · rw [if_pos hw]
      exact linearScan_spec hd l lv r
    · rw [if_neg hw]
      have hm1 : l ≤ tMid1 l r ∧ tMid1 l r ≤ r := by
        unfold tMid1; omega
      have hm2 : tMid1 l r < tMid2 l r ∧ tMid2 l r ≤ r := by
        unfold tMid1 tMid2; omega
      cases hd1 : hd (tMid1 l r) <;> cases hd2 : hd (tMid2 l r)
      · simp only [okChecker, hd1, hd2, Bool.false_eq_true, if_false]
        rw [specBoundary_trim hd hmono lv l (tMid1 l r) r (by omega) hd1 hm1.2]
        exact binarySearchConcurrentGo_spec hd hmono lv l (tMid1 l r - 1) hl
      · simp only [okChecker, hd1, hd2, Bool.false_eq_true, if_false, if_true]
        rw [specBoundary_found hd lv l (tMid2 l r) r hd2 (by omega) hm2.2]
        exact binarySearchConcurrentGo_spec hd hmono (tMid2 l r)
          (tMid2 l r + 1) r (by omega)
      · simp only [okChecker, hd1, hd2, Bool.false_eq_true, if_false, if_true]
        rw [specBoundary_trim hd hmono lv l (tMid2 l r) r (by omega) hd2 hm2.2]
        rw [specBoundary_found hd lv l (tMid1 l r) (tMid2 l r - 1) hd1 hm1.1
          (by omega)]
        exact binarySearchConcurrentGo_spec hd hmono (tMid1 l r)
          (tMid1 l r + 1) (tMid2 l r - 1) (by omega)
      · simp only [okChecker, hd1, hd2, if_true]
        rw [specBoundary_found hd lv l (tMid2 l r) r hd2 (by omega) hm2.2]
        exact binarySearchConcurrentGo_spec hd hmono (tMid2 l r)
          (tMid2 l r + 1) r (by omega)
  · rw [binarySearchConcurrentGo.eq_def, dif_neg hlr, specBoundary.eq_def,
      if_neg hlr]
termination_by (r + 1 - l).toNat
decreasing_by
  all_goals simp only [tMid1, tMid2] at *
  all_goals omega

/-- The concurrent growth loop is the sequential one: the source duplicates
the body verbatim. -/
theorem findUpperBoundConcurrentAux_eq (checker : PageChecker ε) (m page : Int)
    (hp : 1 ≤ page) :
    findUpperBoundConcurrentAux checker m page hp =
      findUpperBoundAux checker m page hp := by
  rw [findUpperBoundConcurrentAux.eq_def, findUpperBoundAux.eq_def]
  by_cases hpm : page < m
  · rw [dif_pos hpm, dif_pos hpm]
    rcases hc : checker (nextProbe m page) with e | b
    · rfl
    · cases b
      · rfl
      · rw [findUpperBoundConcurrentAux_eq checker m (nextProbe m page)]
  · rw [dif_neg hpm, dif_neg hpm]
termination_by (m - page).toNat
decreasing_by
  simp only [nextProbe] at *
  split <;> omega

/-- Characterization of the growth phase on the boundary probe: starting from
a page with data, when the ceiling is comfortably above `2n` the loop returns
the first probed power-of-two multiple without data, whose half still has
data. -/
theorem findUpperBoundAux_boundary (n m page : Int) (hn : 1 ≤ n)
    (hm : 2 * n < m) (hpn : page ≤ n) (hp : 1 ≤ page) :
    ∃ ub : Int,
      (findUpperBoundAux (okChecker (boundaryProbe n)) m page hp :
          FindRes ε).1 = .ok ub ∧
        n < ub ∧ ub ≤ 2 * n ∧ ub / 2 ≤ n ∧ 1 ≤ ub / 2 := by
  rw [findUpperBoundAux.eq_def, dif_pos (by omega : page < m)]
  have hnp : nextProbe m page = page * 2 := by
    unfold nextProbe; rw [if_neg (by omega)]
  by_cases hcase : boundaryProbe n (nextProbe m page) = true
  · have hpn' : nextProbe m page ≤ n := by
      simp only [boundaryProbe, decide_eq_true_eq] at hcase; exact hcase
    simp only [okChecker, hcase, if_true]
    obtain ⟨ub, h1, h2, h3, h4, h5⟩ :=
      findUpperBoundAux_boundary n m (nextProbe m page) hn hm hpn' (by omega)
    exact ⟨ub, h1, h2, h3, h4, h5⟩
  · have hpn' : n < nextProbe m page := by
      simp only [boundaryProbe, decide_eq_true_eq] at hcase; omega
    simp only [okChecker, hcase, if_false]
    refine ⟨nextProbe m page, rfl, hpn', by omega, by omega, by omega⟩
termination_by (n - page).toNat
decreasing_by
  simp only [boundaryProbe, decide_eq_true_eq] at hcase
  omega

/-- Range of a successful growth result: the ceiling itself, or a probed page
in `[2, m]`. -/
theorem findUpperBoundAux_ok (checker : PageChecker ε) (m page ub : Int)
    (hp : 1 ≤ page)
    (h : (findUpperBoundAux checker m page hp).1 = .ok ub) :
    ub = m ∨ (2 ≤ ub ∧ ub ≤ m) := by
  rw [findUpperBoundAux.eq_def] at h
  by_cases hpm : page < m
  · rw [dif_pos hpm] at h
    split at h
    · exact absurd h (by simp)
    · rename_i b heq
      split at h
      · exact findUpperBoundAux_ok checker m (nextProbe m page) ub _ h
      · right
        have hub : ub = nextProbe m page := by
          simpa using h.symm
        simp only [nextProbe] at hub
        constructor <;> (rw [hub]; split <;> omega)
  · rw [dif_neg hpm] at h
    left
    simpa using h.symm
termination_by (m - page).toNat
decreasing_by
  simp only [nextProbe] at *
  split <;> omega

/-- Every page probed by the growth loop lies in `[2, m]`. -/
theorem findUpperBoundAux_trace (checker : PageChecker ε) (m page : Int)
    (hp : 1 ≤ page) :
    ∀ q ∈ (findUpperBoundAux checker m page hp).2, 2 ≤ q ∧ q ≤ m := by
  rw [findUpperBoundAux.eq_def]
  by_cases hpm : page < m
  · rw [dif_pos hpm]
    have hnp : 2 ≤ nextProbe m page ∧ nextProbe m page ≤ m := by
      simp only [nextProbe]; constructor <;> (split <;> omega)
    split
    · intro q hq
      simp only [List.mem_singleton] at hq
      omega
    · rename_i b heq
      split
      · intro q hq
        simp only [List.mem_cons] at hq
        rcases hq with hq | hq
        · omega
        · exact findUpperBoundAux_trace checker m (nextProbe m page) _ q hq
      · intro q hq
        simp only [List.mem_singleton] at hq
        omega
  · rw [dif_neg hpm]
    intro q hq
    simp at hq
termination_by (m - page).toNat
decreasing_by
  simp only [nextProbe] at *
  split <;> omega

/-- A pre-cancelled context makes the sequential binary-search loop bail out
at the top of its first iteration, before probing anything. -/
theorem binarySearchGo_cancelled (checker : PageChecker ε) (lv l r : Int)
    (hlr : l ≤ r) :
    binarySearchGo checker true lv l r = (.error .ctxErr, []) := by
  rw [binarySearchGo.eq_def, dif_pos hlr, if_pos rfl]

/-- A pre-cancelled context makes the concurrent loop bail out likewise. -/
theorem binarySearchConcurrentGo_cancelled (checker : PageChecker ε)
    (lv l r : Int) (hlr : l ≤ r) :
    binarySearchConcurrentGo checker true lv l r = (.error .ctxErr, []) := by
  rw [binarySearchConcurrentGo.eq_def, dif_pos hlr, if_pos rfl]

/-- A successful sequential binary search returns its initial best-known page
or a page of its window. -/
theorem binarySearchGo_ok_range (checker : PageChecker ε) (cancelled : Bool)
    (lv l r v : Int)
    (h : (binarySearchGo checker cancelled lv l r).1 = .ok v) :
    v = lv ∨ (l ≤ v ∧ v ≤ r) := by
  rw [binarySearchGo.eq_def] at h
  by_cases hlr : l ≤ r
  · rw [dif_pos hlr] at h
    by_cases hcan : cancelled = true
    · rw [if_pos hcan] at h
      exact absurd h (by simp)
    · rw [if_neg hcan] at h
      split at h
      · exact absurd h (by simp)
      · rename_i b heq
        have hmid : l ≤ midpoint l r ∧ midpoint l r ≤ r := by
          simp only [midpoint]; omega
        split at h
        · rcases binarySearchGo_ok_range checker cancelled (midpoint l r)
            (midpoint l r + 1) r v h with h1 | h2
          · right; omega
          · right; omega
        · rcases binarySearchGo_ok_range checker cancelled lv l
            (midpoint l r - 1) v h with h1 | h2
          · left; exact h1
          · right; omega
  · rw [dif_neg hlr] at h
    left
    simpa using h.symm
termination_by (r + 1 - l).toNat
decreasing_by
  all_goals simp only [midpoint] at *
  all_goals omega

/-- Every page probed by the sequential binary search lies in its window. -/
theorem binarySearchGo_trace_range (checker : PageChecker ε)
    (cancelled : Bool) (lv l r : Int) :
    ∀ q ∈ (binarySearchGo checker cancelled lv l r).2, l ≤ q ∧ q ≤ r := by
  rw [binarySearchGo.eq_def]
  by_cases hlr : l ≤ r
  · rw [dif_pos hlr]
    by_cases hcan : cancelled = true
    · rw [if_pos hcan]
      intro q hq
      simp at hq
    · rw [if_neg hcan]
      have hmid : l ≤ midpoint l r ∧ midpoint l r ≤ r := by
        simp only [midpoint]; omega
      split
      · intro q hq
        simp only [List.mem_singleton] at hq
        omega
      · rename_i b heq
        split
        · intro q hq
          simp only [List.mem_cons] at hq
          rcases hq with hq | hq
          · omega
          · have := binarySearchGo_trace_range checker cancelled
              (midpoint l r) (midpoint l r + 1) r q hq
            omega
        · intro q hq
          simp only [List.mem_cons] at hq
          rcases hq with hq | hq
          · omega
          · have := binarySearchGo_trace_range checker cancelled lv l
              (midpoint l r - 1) q hq
            omega
  · rw [dif_neg hlr]
    intro q hq
    simp at hq
termination_by (r + 1 - l).toNat
decreasing_by
  all_goals simp only [midpoint] at *
  all_goals omega

/-- A successful linear scan returns its best-known page or a page of its
window. -/
theorem linearScan_ok_range (checker : PageChecker ε) (l lv p v : Int)
    (h : (linearScan checker l lv p).1 = .ok v) :
    v = lv ∨ (l ≤ v ∧ v ≤ p) := by
  rw [linearScan.eq_def] at h
  by_cases hlp : l ≤ p
  · rw [dif_pos hlp] at h
    split at h
    · exact absurd h (by simp)
    · rename_i b heq
      split at h
      · right
        have : v = p := by simpa using h.symm
        omega
      · rcases linearScan_ok_range checker l lv (p - 1) v h with h1 | h2
        · left; exact h1
        · right; omega
  · rw [dif_neg hlp] at h
    left
    simpa using h.symm
termination_by (p + 1 - l).toNat
decreasing_by omega

/-- Every page probed by the linear scan lies in its window. -/
theorem linearScan_trace_range (checker : PageChecker ε) (l lv p : Int) :
    ∀ q ∈ (linearScan checker l lv p).2, l ≤ q ∧ q ≤ p := by
  rw [linearScan.eq_def]
  by_cases hlp : l ≤ p
  · rw [dif_pos hlp]
    split
    · intro q hq
      simp only [List.mem_singleton] at hq
      omega
    · rename_i b heq
      split
      · intro q hq
        simp only [List.mem_singleton] at hq
        omega
      · intro q hq
        simp only [List.mem_cons] at hq
        rcases hq with hq | hq
        · omega
        · have := linearScan_trace_range checker l lv (p - 1) q hq
          omega
  · rw [dif_neg hlp]
    intro q hq
    simp at hq
termination_by (p + 1 - l).toNat
decreasing_by omega

/-- A successful concurrent search returns its best-known page or a page of
its window. -/
theorem binarySearchConcurrentGo_ok_range (checker : PageChecker ε)
    (cancelled : Bool) (lv l r v : Int)
    (h : (binarySearchConcurrentGo checker cancelled lv l r).1 = .ok v) :
    v = lv ∨ (l ≤ v ∧ v ≤ r) := by
  rw [binarySearchConcurrentGo.eq_def] at h
  by_cases hlr : l ≤ r
  · rw [dif_pos hlr] at h
    by_cases hcan : cancelled = true
    · rw [if_pos hcan] at h
      exact absurd h (by simp)
    · rw [if_neg hcan] at h
      by_cases hw : r - l ≤ 3
      · rw [if_pos hw] at h
        exact linearScan_ok_range checker l lv r v h
      · rw [if_neg hw] at h
        have hm1 : l ≤ tMid1 l r ∧ tMid1 l r ≤ r := by
          simp only [tMid1]; omega
        have hm2 : l ≤ tMid2 l r ∧ tMid2 l r ≤ r := by
          simp only [tMid1, tMid2]; omega
        split at h
        · exact absurd h (by simp)
        · exact absurd h (by simp)
        · rename_i b1 b2 heq1 heq2
          split at h
          · rcases binarySearchConcurrentGo_ok_range checker cancelled
              (tMid2 l r) (tMid2 l r + 1) r v h with h1 | h2
            · right; omega
            · right; omega
          · split at h
            · rcases binarySearchConcurrentGo_ok_range checker cancelled
                (tMid1 l r) (tMid1 l r + 1) (tMid2 l r - 1) v h with h1 | h2
              · right; omega
              · right; omega
            · rcases binarySearchConcurrentGo_ok_range checker cancelled lv l
                (tMid1 l r - 1) v h with h1 | h2
              · left; exact h1
              · right; omega
  · rw [dif_neg hlr] at h
    left
    simpa using h.symm
termination_by (r + 1 - l).toNat
decreasing_by
  all_goals simp only [tMid1, tMid2] at *
  all_goals omega

/-- Every page probed by the concurrent search lies in its window. -/
theorem binarySearchConcurrentGo_trace_range (checker : PageChecker ε)
    (cancelled : Bool) (lv l r : Int) :
    ∀ q ∈ (binarySearchConcurrentGo checker cancelled lv l r).2,
      l ≤ q ∧ q ≤ r := by
  rw [binarySearchConcurrentGo.eq_def]
  by_cases hlr : l ≤ r
  · rw [dif_pos hlr]
    by_cases hcan : cancelled = true
    · rw [if_pos hcan]
      intro q hq
      simp at hq
    · rw [if_neg hcan]
      by_cases hw : r - l ≤ 3
      · rw [if_pos hw]
        exact linearScan_trace_range checker l lv r
      · rw [if_neg hw]
        have hm1 : l ≤ tMid1 l r ∧ tMid1 l r ≤ r := by
          simp only [tMid1]; omega
        have hm2 : l ≤ tMid2 l r ∧ tMid2 l r ≤ r := by
          simp only [tMid1, tMid2]; omega
        split
        · intro q hq
          simp only [List.mem_cons, List.mem_singleton] at hq
          rcases hq with hq | hq | hq
          · omega
          · omega
          · simp at hq
        · intro q hq
          simp only [List.mem_cons, List.mem_singleton] at hq
          rcases hq with hq | hq | hq
          · omega
          · omega
          · simp at hq
        · rename_i b1 b2 heq1 heq2
          split
          · intro q hq
            simp only [List.mem_cons] at hq
            rcases hq with hq | hq | hq
            · omega
            · omega
            · have := binarySearchConcurrentGo_trace_range checker cancelled
                (tMid2 l r) (tMid2 l r + 1) r q hq
              omega
          · split
            · intro q hq
              simp only [List.mem_cons] at hq
              rcases hq with hq | hq | hq
              · omega
              · omega
              · have := binarySearchConcurrentGo_trace_range checker cancelled
                  (tMid1 l r) (tMid1 l r + 1) (tMid2 l r - 1) q hq
                omega
            · intro q hq
              simp only [List.mem_cons] at hq
              rcases hq with hq | hq | hq
              · omega
              · omega
              · have := binarySearchConcurrentGo_trace_range checker cancelled
                  lv l (tMid1 l r - 1) q hq
                omega
  · rw [dif_neg hlr]
    intro q hq
    simp at hq
termination_by (r + 1 - l).toNat
decreasing_by
  all_goals simp only [tMid1, tMid2] at *
  all_goals omega

theorem probesOk_cons (checker : PageChecker ε) (p : Int) (tr : List Int)
    (hp : ∃ b, checker p = .ok b) (htr : probesOk checker tr) :
    probesOk checker (p :: tr) := by
  intro q hq
  rcases List.mem_cons.mp hq with h1 | h1
  · subst h1; exact hp
  · exact htr q h1

theorem probesOk_append (checker : PageChecker ε) (t1 t2 : List Int)
    (h1 : probesOk checker t1) (h2 : probesOk checker t2) :
    probesOk checker (t1 ++ t2) := by
  intro q hq
  rcases List.mem_append.mp hq with h | h
  · exact h1 q h
  · exact h2 q h

/-- The growth loop either probes only pages that answer without error, or
stops at its first erroring probe, which is the last page of its trace and
whose error it returns. -/
theorem findUpperBoundAux_firstError (checker : PageChecker ε) (m page : Int)
    (hp : 1 ≤ page) :
    ((∃ v, (findUpperBoundAux checker m page hp).1 = .ok v) ∧
      probesOk checker (findUpperBoundAux checker m page hp).2) ∨
    ∃ t p e, (findUpperBoundAux checker m page hp).2 = t ++ [p] ∧
      checker p = .error e ∧ probesOk checker t ∧
      (findUpperBoundAux checker m page hp).1 = .error (.probe e) := by
  rw [findUpperBoundAux.eq_def]
  by_cases hpm : page < m
  · rw [dif_pos hpm]
    split
    · rename_i e heq
      right
      refine ⟨[], nextProbe m page, e, by simp, heq, ?_, by simp⟩
      intro q hq
      simp at hq
    · rename_i b heq
      split
      · rcases findUpperBoundAux_firstError checker m (nextProbe m page)
            (by simp only [nextProbe]; split <;> omega) with
          ⟨⟨v, hv⟩, hall⟩ | ⟨t, p, e, htr, hce, hto, hres⟩
        · left
          refine ⟨⟨v, hv⟩, ?_⟩
          refine probesOk_cons checker (nextProbe m page) _ ⟨b, heq⟩ ?_
          exact hall
        · right
          refine ⟨nextProbe m page :: t, p, e, ?_, hce, ?_, hres⟩
          · simpa using congrArg (List.cons (nextProbe m page)) htr
          · exact probesOk_cons checker (nextProbe m page) t ⟨b, heq⟩ hto
      · left
        refine ⟨⟨nextProbe m page, by simp⟩, ?_⟩
        intro q hq
        simp only [List.mem_singleton] at hq
        subst hq
        exact ⟨b, heq⟩
  · rw [dif_neg hpm]
    left
    refine ⟨⟨m, by simp⟩, ?_⟩
    intro q hq
    simp at hq
termination_by (m - page).toNat
decreasing_by
  simp only [nextProbe] at *
  split <;> omega

/-- The sequential binary search either probes only pages that answer without
error (returning a page or the cancellation error), or stops at its first
erroring probe, the last page of its trace, and returns that probe's error. -/
theorem binarySearchGo_firstError (checker : PageChecker ε) (cancelled : Bool)
    (lv l r : Int) :
    (((∃ v, (binarySearchGo checker cancelled lv l r).1 = .ok v) ∨
        (binarySearchGo checker cancelled lv l r).1 = .error .ctxErr) ∧
      probesOk checker (binarySearchGo checker cancelled lv l r).2) ∨
    ∃ t p e, (binarySearchGo checker cancelled lv l r).2 = t ++ [p] ∧
      checker p = .error e ∧ probesOk checker t ∧
      (binarySearchGo checker cancelled lv l r).1 = .error (.probe e) := by
  rw [binarySearchGo.eq_def]
  by_cases hlr : l ≤ r
  · rw [dif_pos hlr]
    by_cases hcan : cancelled = true
    · rw [if_pos hcan]
      left
      refine ⟨Or.inr (by simp), ?_⟩
      intro q hq
      simp at hq
    · rw [if_neg hcan]
      split
      · rename_i e heq
        right
        refine ⟨[], midpoint l r, e, by simp, heq, ?_, by simp⟩
        intro q hq
        simp at hq
      · rename_i b heq
        split
        · rcases binarySearchGo_firstError checker cancelled (midpoint l r)
              (midpoint l r + 1) r with
            ⟨hres, hall⟩ | ⟨t, p, e, htr, hce, hto, hres⟩
          · left
            exact ⟨hres, probesOk_cons checker (midpoint l r) _ ⟨b, heq⟩ hall⟩
          · right
            refine ⟨midpoint l r :: t, p, e, ?_, hce, ?_, hres⟩
            · simpa using congrArg (List.cons (midpoint l r)) htr
            · exact probesOk_cons checker (midpoint l r) t ⟨b, heq⟩ hto
        · rcases binarySearchGo_firstError checker cancelled lv l
              (midpoint l r - 1) with
            ⟨hres, hall⟩ | ⟨t, p, e, htr, hce, hto, hres⟩
          · left
            exact ⟨hres, probesOk_cons checker (midpoint l r) _ ⟨b, heq⟩ hall⟩
          · right
            refine ⟨midpoint l r :: t, p, e, ?_, hce, ?_, hres⟩
            · simpa using congrArg (List.cons (midpoint l r)) htr
            · exact probesOk_cons checker (midpoint l r) t ⟨b, heq⟩ hto
  · rw [dif_neg hlr]
    left
    refine ⟨Or.inl ⟨lv, by simp⟩, ?_⟩
    intro q hq
    simp at hq
termination_by (r + 1 - l).toNat
decreasing_by
  all_goals simp only [midpoint] at *
  all_goals omega

/-- If page 1 has no data, the sequential finder stops after that single
probe and returns 0. -/
theorem findTotalPages_empty (checker : PageChecker ε) (cancelled : Bool)
    (c : Int) (h : checker 1 = .ok false) :
    FindTotalPages checker cancelled c = (.ok 0, [1]) := by
  simp [FindTotalPages, h]

/-- If page 1 has no data, the concurrent finder stops after that single
probe and returns 0. -/
theorem findTotalPagesConcurrent_empty (checker : PageChecker ε)
    (cancelled : Bool) (c : Int) (h : checker 1 = .ok false) :
    FindTotalPagesConcurrent checker cancelled c = (.ok 0, [1]) := by
  simp [FindTotalPagesConcurrent, h]

theorem findUpperBoundConcurrent_eq (checker : PageChecker ε) (m : Int) :
    findUpperBoundConcurrent checker m = findUpperBound checker m := by
  unfold findUpperBoundConcurrent findUpperBound
  exact findUpperBoundConcurrentAux_eq checker m 1 (by omega)

/-- Full correctness of the sequential finder on the boundary probe, for any
ceiling comfortably above twice the boundary. -/
theorem findTotalPages_boundary (n c : Int) (hn : 1 ≤ n)
    (hc : 2 * n < normCeil c) :
    (FindTotalPages (okChecker (boundaryProbe n)) false c : FindRes ε).1 =
      .ok n := by
  have h1 : (okChecker (boundaryProbe n) : PageChecker ε) 1 = .ok true := by
    simp only [okChecker, boundaryProbe, Except.ok.injEq, decide_eq_true_eq]
    omega
  obtain ⟨ub, hub, hnub, hub2n, hubd2, hubd1⟩ :=
    findUpperBoundAux_boundary (ε := ε) n (normCeil c) 1 hn hc hn (by omega)
  rcases hfu : (findUpperBound (okChecker (boundaryProbe n)) (normCeil c) :
      FindRes ε) with ⟨res1, tr1⟩
  have hub' : res1 = .ok ub := by
    have hx : (findUpperBound (okChecker (boundaryProbe n)) (normCeil c) :
        FindRes ε).1 = .ok ub := hub
    rw [hfu] at hx
    exact hx
  subst hub'
  rcases hbs : (binarySearch (okChecker (boundaryProbe n)) false (ub / 2) ub :
      FindRes ε) with ⟨res2, tr2⟩
  have hres2 : res2 = .ok n := by
    have hspec : (binarySearch (okChecker (boundaryProbe n)) false (ub / 2) ub :
        FindRes ε).1 =
        .ok (specBoundary (boundaryProbe n) (ub / 2) (ub / 2) ub) :=
      binarySearchGo_spec (boundaryProbe n) (boundaryProbe_monotone n)
        (ub / 2) (ub / 2) ub hubd1
    rw [hbs] at hspec
    simp only at hspec
    rw [hspec, specBoundary_boundary n (ub / 2) (ub / 2) ub hubd2 (by omega)]
  subst hres2
  have hne : ¬ ub = normCeil c := by omega
  simp [FindTotalPages, h1, hfu, hbs, hne]

/-- Full correctness of the concurrent finder on the boundary probe, for any
ceiling comfortably above twice the boundary. -/
theorem findTotalPagesConcurrent_boundary (n c : Int) (hn : 1 ≤ n)
    (hc : 2 * n < normCeil c) :
    (FindTotalPagesConcurrent (okChecker (boundaryProbe n)) false c :
        FindRes ε).1 = .ok n := by
  have h1 : (okChecker (boundaryProbe n) : PageChecker ε) 1 = .ok true := by
    simp only [okChecker, boundaryProbe, Except.ok.injEq, decide_eq_true_eq]
    omega
  obtain ⟨ub, hub, hnub, hub2n, hubd2, hubd1⟩ :=
    findUpperBoundAux_boundary (ε := ε) n (normCeil c) 1 hn hc hn (by omega)
  rcases hfu : (findUpperBoundConcurrent (okChecker (boundaryProbe n))
      (normCeil c) : FindRes ε) with ⟨res1, tr1⟩
  have hub' : res1 = .ok ub := by
    have hx : (findUpperBoundConcurrent (okChecker (boundaryProbe n))
        (normCeil c) : FindRes ε).1 = .ok ub := by
      rw [findUpperBoundConcurrent_eq]
      exact hub
    rw [hfu] at hx
    exact hx
  subst hub'
  rcases hbs : (binarySearchConcurrent (okChecker (boundaryProbe n)) false
      (ub / 2) ub : FindRes ε) with ⟨res2, tr2⟩
  have hres2 : res2 = .ok n := by
    have hspec : (binarySearchConcurrent (okChecker (boundaryProbe n)) false
        (ub / 2) ub : FindRes ε).1 =
        .ok (specBoundary (boundaryProbe n) (ub / 2) (ub / 2) ub) :=
      binarySearchConcurrentGo_spec (boundaryProbe n)
        (boundaryProbe_monotone n) (ub / 2) (ub / 2) ub hubd1
    rw [hbs] at hspec
    simp only at hspec
    rw [hspec, specBoundary_boundary n (ub / 2) (ub / 2) ub hubd2 (by omega)]
  subst hres2
  have hne : ¬ ub = normCeil c := by omega
  simp [FindTotalPagesConcurrent, h1, hfu, hbs, hne]

theorem findUpperBound_firstError (checker : PageChecker ε) (m : Int) :
    ((∃ v, (findUpperBound checker m).1 = .ok v) ∧
      probesOk checker (findUpperBound checker m).2) ∨
    ∃ t p e, (findUpperBound checker m).2 = t ++ [p] ∧
      checker p = .error e ∧ probesOk checker t ∧
      (findUpperBound checker m).1 = .error (.probe e) := by
  unfold findUpperBound
  exact findUpperBoundAux_firstError checker m 1 (by omega)

theorem findUpperBound_ok (checker : PageChecker ε) (m ub : Int)
    (h : (findUpperBound checker m).1 = .ok ub) :
    ub = m ∨ (2 ≤ ub ∧ ub ≤ m) :=
  findUpperBoundAux_ok checker m 1 ub (by omega) h

theorem findUpperBound_trace (checker : PageChecker ε) (m : Int) :
    ∀ q ∈ (findUpperBound checker m).2, 2 ≤ q ∧ q ≤ m := by
  unfold findUpperBound
  exact findUpperBoundAux_trace checker m 1 (by omega)

theorem findUpperBoundConcurrent_ok (checker : PageChecker ε) (m ub : Int)
    (h : (findUpperBoundConcurrent checker m).1 = .ok ub) :
    ub = m ∨ (2 ≤ ub ∧ ub ≤ m) := by
  rw [findUpperBoundConcurrent_eq] at h
  exact findUpperBound_ok checker m ub h

theorem findUpperBoundConcurrent_trace (checker : PageChecker ε) (m : Int) :
    ∀ q ∈ (findUpperBoundConcurrent checker m).2, 2 ≤ q ∧ q ≤ m := by
  rw [findUpperBoundConcurrent_eq]
  exact findUpperBound_trace checker m

theorem binarySearch_firstError (checker : PageChecker ε) (cancelled : Bool)
    (l r : Int) :
    (((∃ v, (binarySearch checker cancelled l r).1 = .ok v) ∨
        (binarySearch checker cancelled l r).1 = .error .ctxErr) ∧
      probesOk checker (binarySearch checker cancelled l r).2) ∨
    ∃ t p e, (binarySearch checker cancelled l r).2 = t ++ [p] ∧
      checker p = .error e ∧ probesOk checker t ∧
      (binarySearch checker cancelled l r).1 = .error (.probe e) := by
  unfold binarySearch
  exact binarySearchGo_firstError checker cancelled l l r

theorem binarySearch_ok_range (checker : PageChecker ε) (cancelled : Bool)
    (l r v : Int) (h : (binarySearch checker cancelled l r).1 = .ok v) :
    v = l ∨ (l ≤ v ∧ v ≤ r) :=
  binarySearchGo_ok_range checker cancelled l l r v h

theorem binarySearch_trace_range (checker : PageChecker ε) (cancelled : Bool)
    (l r : Int) :
    ∀ q ∈ (binarySearch checker cancelled l r).2, l ≤ q ∧ q ≤ r := by
  unfold binarySearch
  exact binarySearchGo_trace_range checker cancelled l l r

theorem binarySearchConcurrent_ok_range (checker : PageChecker ε)
    (cancelled : Bool) (l r v : Int)
    (h : (binarySearchConcurrent checker cancelled l r).1 = .ok v) :
    v = l ∨ (l ≤ v ∧ v ≤ r) :=
  binarySearchConcurrentGo_ok_range checker cancelled l l r v h

theorem binarySearchConcurrent_trace_range (checker : PageChecker ε)
    (cancelled : Bool) (l r : Int) :
    ∀ q ∈ (binarySearchConcurrent checker cancelled l r).2,
      l ≤ q ∧ q ≤ r := by
  unfold binarySearchConcurrent
  exact binarySearchConcurrentGo_trace_range checker cancelled l l r

/- ---------------------------------------------------------------------- -/
/- Claim theorems.                                                         -/
/- ---------------------------------------------------------------------- -/

/-- C1: the claim requires `FindTotalPages` to return the true boundary `n`
for every error-free monotone probe with `1 ≤ n <` ceiling.  The code does
not: with the boundary probe of boundary 1 and ceiling 2, the growth phase
probes page 2, finds it empty, and returns it as `upperBound`; since
`upperBound == maxPage`, `FindTotalPages` returns the ceiling 2 directly
instead of binary-searching, although the probed page 2 has no data and the
last page with data is 1 (contradicting the function's own doc comment
"Returns the total number of pages (last page with data)"). -/
theorem claim_C1_sequential_boundary_bug_eval :
    (FindTotalPages (okChecker (boundaryProbe 1)) false 2 :
        FindRes Unit).1 = .ok 2 ∧
      boundaryProbe 1 2 = false := by
  constructor
  · simp [FindTotalPages, findUpperBound, findUpperBoundAux, binarySearch,
      okChecker, boundaryProbe, normCeil, nextProbe]
  · rfl

/-- C2: for every boundary `n` in {0, 1, 10, 100, 500, 1000}, with the probe
`hasData(page) = page ≤ n` and the default ceiling obtained by passing a
non-positive ceiling, both finders return exactly `n` with a nil error. -/
theorem claim_C2_monotone_correctness :
    ((FindTotalPages (okChecker (boundaryProbe 0)) false 0 :
        FindRes Unit).1 = .ok 0) ∧
    ((FindTotalPagesConcurrent (okChecker (boundaryProbe 0)) false 0 :
        FindRes Unit).1 = .ok 0) ∧
    ((FindTotalPages (okChecker (boundaryProbe 1)) false 0 :
        FindRes Unit).1 = .ok 1) ∧
    ((FindTotalPagesConcurrent (okChecker (boundaryProbe 1)) false 0 :
        FindRes Unit).1 = .ok 1) ∧
    ((FindTotalPages (okChecker (boundaryProbe 10)) false 0 :
        FindRes Unit).1 = .ok 10) ∧
    ((FindTotalPagesConcurrent (okChecker (boundaryProbe 10)) false 0 :
        FindRes Unit).1 = .ok 10) ∧
    ((FindTotalPages (okChecker (boundaryProbe 100)) false 0 :
        FindRes Unit).1 = .ok 100) ∧
    ((FindTotalPagesConcurrent (okChecker (boundaryProbe 100)) false 0 :
        FindRes Unit).1 = .ok 100) ∧
    ((FindTotalPages (okChecker (boundaryProbe 500)) false 0 :
        FindRes Unit).1 = .ok 500) ∧
    ((FindTotalPagesConcurrent (okChecker (boundaryProbe 500)) false 0 :
        FindRes Unit).1 = .ok 500) ∧
    ((FindTotalPages (okChecker (boundaryProbe 1000)) false 0 :
        FindRes Unit).1 = .ok 1000) ∧
    ((FindTotalPagesConcurrent (okChecker (boundaryProbe 1000)) false 0 :
        FindRes Unit).1 = .ok 1000) := by
  have hz : (okChecker (boundaryProbe 0) : PageChecker Unit) 1 = .ok false := by
    simp [okChecker, boundaryProbe]
  refine ⟨?_, ?_, ?_, ?_, ?_, ?_, ?_, ?_, ?_, ?_, ?_, ?_⟩
  · rw [findTotalPages_empty _ false 0 hz]
  · rw [findTotalPagesConcurrent_empty _ false 0 hz]
  · exact findTotalPages_boundary 1 0 (by norm_num) (by simp [normCeil])
  · exact findTotalPagesConcurrent_boundary 1 0 (by norm_num)
      (by simp [normCeil])
  · exact findTotalPages_boundary 10 0 (by norm_num) (by simp [normCeil])
  · exact findTotalPagesConcurrent_boundary 10 0 (by norm_num)
      (by simp [normCeil])
  · exact findTotalPages_boundary 100 0 (by norm_num) (by simp [normCeil])
  · exact findTotalPagesConcurrent_boundary 100 0 (by norm_num)
      (by simp [normCeil])
  · exact findTotalPages_boundary 500 0 (by norm_num) (by simp [normCeil])
  · exact findTotalPagesConcurrent_boundary 500 0 (by norm_num)
      (by simp [normCeil])
  · exact findTotalPages_boundary 1000 0 (by norm_num) (by simp [normCeil])
  · exact findTotalPagesConcurrent_boundary 1000 0 (by norm_num)
      (by simp [normCeil])

/-- C3: for every error-free monotone probe and every ceiling, the sequential
and the concurrent finder return identical results (they may differ only in
which pages they probe). -/
theorem claim_C3_equivalence (hasData : Int → Bool) (c : Int)
    (hmono : MonotoneProbe hasData) :
    (FindTotalPages (okChecker hasData) false c : FindRes ε).1 =
      (FindTotalPagesConcurrent (okChecker hasData) false c).1 := by
  cases h1 : hasData 1
  · have hc1 : (okChecker hasData : PageChecker ε) 1 = .ok false := by
      simp [okChecker, h1]
    rw [findTotalPages_empty _ false c hc1,
      findTotalPagesConcurrent_empty _ false c hc1]
  · have hc1 : (okChecker hasData : PageChecker ε) 1 = .ok true := by
      simp [okChecker, h1]
    rcases hfu : (findUpperBound (okChecker hasData) (normCeil c) : FindRes ε)
      with ⟨res1, tr1⟩
    have hfuc : (findUpperBoundConcurrent (okChecker hasData) (normCeil c) :
        FindRes ε) = (res1, tr1) := by
      rw [findUpperBoundConcurrent_eq]
      exact hfu
    cases res1 with
    | error e =>
      simp [FindTotalPages, FindTotalPagesConcurrent, hc1, hfu, hfuc]
    | ok ub =>
      by_cases hube : ub = normCeil c
      · simp [FindTotalPages, FindTotalPagesConcurrent, hc1, hfu, hfuc, hube]
      · have hubok : (findUpperBound (okChecker hasData) (normCeil c) :
            FindRes ε).1 = .ok ub := by
          rw [hfu]
        have hrange := findUpperBoundAux_ok (okChecker hasData) (normCeil c) 1
          ub (by omega) hubok
        have hub2 : 2 ≤ ub := by
          rcases hrange with h | h
          · exact absurd h hube
          · exact h.1
        have h1div : 1 ≤ ub / 2 := by omega
        have hs : (binarySearch (okChecker hasData) false (ub / 2) ub :
            FindRes ε).1 =
            .ok (specBoundary hasData (ub / 2) (ub / 2) ub) :=
          binarySearchGo_spec hasData hmono (ub / 2) (ub / 2) ub h1div
        have hcs : (binarySearchConcurrent (okChecker hasData) false (ub / 2)
            ub : FindRes ε).1 =
            .ok (specBoundary hasData (ub / 2) (ub / 2) ub) :=
          binarySearchConcurrentGo_spec hasData hmono (ub / 2) (ub / 2) ub
            h1div
        rcases hbs : (binarySearch (okChecker hasData) false (ub / 2) ub :
            FindRes ε) with ⟨res2, tr2⟩
        rcases hbsc : (binarySearchConcurrent (okChecker hasData) false
            (ub / 2) ub : FindRes ε) with ⟨res3, tr3⟩
        rw [hbs] at hs
        rw [hbsc] at hcs
        simp only at hs hcs
        subst hs
        subst hcs
        simp [FindTotalPages, FindTotalPagesConcurrent, hc1, hfu, hfuc, hube,
          hbs, hbsc]

/-- Witness for C3 at the boundary probe of boundary 10 and the default
ceiling. -/
theorem claim_C3_equivalence_witness :
    MonotoneProbe (boundaryProbe 10) ∧
      (FindTotalPages (okChecker (boundaryProbe 10)) false 0 :
          FindRes Unit).1 =
        (FindTotalPagesConcurrent (okChecker (boundaryProbe 10)) false 0).1 :=
  ⟨boundaryProbe_monotone 10,
    claim_C3_equivalence (boundaryProbe 10) 0 (boundaryProbe_monotone 10)⟩

/-- C7: a non-positive ceiling argument makes each finder behave exactly as
if called with ceiling 100000: same value, same error, and the same sequence
of probe invocations. -/
theorem claim_C7_default_ceiling (checker : PageChecker ε) (cancelled : Bool)
    (c : Int) (hc : c ≤ 0) :
    FindTotalPages checker cancelled c =
        FindTotalPages checker cancelled 100000 ∧
      FindTotalPagesConcurrent checker cancelled c =
        FindTotalPagesConcurrent checker cancelled 100000 := by
  have h : normCeil c = normCeil 100000 := by
    unfold normCeil
    rw [if_pos hc, if_neg (by omega)]
  constructor
  · unfold FindTotalPages
    rw [h]
  · unfold FindTotalPagesConcurrent
    rw [h]

/-- Witness for C7 at ceiling -5. -/
theorem claim_C7_default_ceiling_witness :
    (-5 : Int) ≤ 0 ∧
      FindTotalPages (okChecker (boundaryProbe 3) : PageChecker Unit) false
          (-5) =
        FindTotalPages (okChecker (boundaryProbe 3)) false 100000 ∧
      FindTotalPagesConcurrent (okChecker (boundaryProbe 3) :
          PageChecker Unit) false (-5) =
        FindTotalPagesConcurrent (okChecker (boundaryProbe 3)) false 100000 :=
  ⟨by norm_num,
    (claim_C7_default_ceiling (okChecker (boundaryProbe 3)) false (-5)
      (by norm_num)).1,
    (claim_C7_default_ceiling (okChecker (boundaryProbe 3)) false (-5)
      (by norm_num)).2⟩

/-- C9: the probe built by `CreatePageChecker` reports data exactly when the
fetched links carry a non-empty self-reference, and forwards a fetcher error
as `(false, that same error)` without inspecting the links. -/
theorem claim_C9_links_adapter (fetcher : Int → Links × Option ε)
    (page : Int) :
    (∀ e, (fetcher page).2 = some e →
        CreatePageChecker fetcher page = (false, some e)) ∧
    ((fetcher page).2 = none →
        CreatePageChecker fetcher page =
          ((fetcher page).1.Self.Href != "", none)) ∧
    ((CreatePageChecker fetcher page).1 = true ↔
        (fetcher page).2 = none ∧ (fetcher page).1.Self.Href ≠ "") := by
  rcases hf : fetcher page with ⟨links, oe⟩
  cases oe
  · simp [CreatePageChecker, hf]
  · simp [CreatePageChecker, hf]

/-- Witness for C9 at a fetcher returning a non-empty self link. -/
theorem claim_C9_links_adapter_witness :
    ((fun _ : Int => (Links.mk (Link.mk "x") (Link.mk "") (Link.mk ""),
        (none : Option Unit))) 1).2 = none ∧
      CreatePageChecker (fun _ : Int => (Links.mk (Link.mk "x") (Link.mk "")
          (Link.mk ""), (none : Option Unit))) 1 =
        (((fun _ : Int => (Links.mk (Link.mk "x") (Link.mk "") (Link.mk ""),
          (none : Option Unit))) 1).1.Self.Href != "", none) :=
  ⟨rfl, (claim_C9_links_adapter _ 1).2.1 rfl⟩

/-- C4 (amended): any probe error stops the sequential finder at once — the
erroring page is the last entry of its probe trace, every earlier probe
answered without error, and no numeric boundary is returned; the error is
the probe's own, wrapped with a label naming the phase that failed ("failed
to check page 1", "failed to find upper bound" or "binary search failed"),
and only the page-1 label names the failing page. -/
theorem claim_C4_error_abort (checker : PageChecker ε) (cancelled : Bool)
    (c : Int) :
    probesOk checker (FindTotalPages checker cancelled c).2 ∨
    ∃ t p e, (FindTotalPages checker cancelled c).2 = t ++ [p] ∧
      checker p = .error e ∧ probesOk checker t ∧
      ((FindTotalPages checker cancelled c).1 =
          .error (.wrap "failed to check page 1" (.probe e)) ∨
        (FindTotalPages checker cancelled c).1 =
          .error (.wrap "failed to find upper bound" (.probe e)) ∨
        (FindTotalPages checker cancelled c).1 =
          .error (.wrap "binary search failed" (.probe e))) := by
  rcases hc1 : checker 1 with e | b
  · right
    refine ⟨[], 1, e, ?_, hc1, ?_, ?_⟩
    · simp [FindTotalPages, hc1]
    · intro q hq
      simp at hq
    · left
      simp [FindTotalPages, hc1]
  · cases b
    · left
      rw [findTotalPages_empty checker cancelled c hc1]
      intro q hq
      simp only [List.mem_singleton] at hq
      subst hq
      exact ⟨false, hc1⟩
    · rcases hfu : findUpperBound checker (normCeil c) with ⟨res1, tr1⟩
      have hfe := findUpperBound_firstError checker (normCeil c)
      rw [hfu] at hfe
      simp only at hfe
      rcases hfe with ⟨⟨v, hv⟩, hall⟩ | ⟨t, p, e, htr, hce, hto, hres⟩
      · subst hv
        by_cases hve : v = normCeil c
        · left
          have htrace : (FindTotalPages checker cancelled c).2 = 1 :: tr1 := by
            simp [FindTotalPages, hc1, hfu, hve]
          rw [htrace]
          exact probesOk_cons checker 1 tr1 ⟨true, hc1⟩ hall
        · rcases hbs : binarySearch checker cancelled (v / 2) v
            with ⟨res2, tr2⟩
          have hbe := binarySearch_firstError checker cancelled (v / 2) v
          rw [hbs] at hbe
          simp only at hbe
          rcases hbe with ⟨hres2, hall2⟩ | ⟨t, p, e, htr2, hce2, hto2, hres2⟩
          · left
            have htrace : (FindTotalPages checker cancelled c).2 =
                1 :: tr1 ++ tr2 := by
              cases res2 <;> simp [FindTotalPages, hc1, hfu, hve, hbs]
            rw [htrace]
            refine probesOk_cons checker 1 (tr1 ++ tr2) ⟨true, hc1⟩ ?_
            exact probesOk_append checker tr1 tr2 hall hall2
          · subst hres2
            right
            refine ⟨1 :: tr1 ++ t, p, e, ?_, hce2, ?_, ?_⟩
            · simp [FindTotalPages, hc1, hfu, hve, hbs, htr2]
            · refine probesOk_cons checker 1 (tr1 ++ t) ⟨true, hc1⟩ ?_
              exact probesOk_append checker tr1 t hall hto2
            · right; right
              simp [FindTotalPages, hc1, hfu, hve, hbs]
      · subst hres
        right
        refine ⟨1 :: t, p, e, ?_, hce, ?_, ?_⟩
        · simp [FindTotalPages, hc1, hfu, htr]
        · exact probesOk_cons checker 1 t ⟨true, hc1⟩ hto
        · right; left
          simp [FindTotalPages, hc1, hfu]

/-- C4 counterexample: probes failing at page 2 and at page 4 produce the
*identical* error value `wrap "failed to find upper bound" (probe e)`, so
the returned error is not wrapped with the page number that failed (the
traces show the failing pages differ: 2 versus 4). -/
theorem claim_C4_error_wrap_counterexample :
    (FindTotalPages (probeFailFrom 2) false 1000).1 =
        .error (.wrap "failed to find upper bound" (.probe ())) ∧
      (FindTotalPages (probeFailFrom 4) false 1000).1 =
        .error (.wrap "failed to find upper bound" (.probe ())) ∧
      (FindTotalPages (probeFailFrom 2) false 1000).2 = [1, 2] ∧
      (FindTotalPages (probeFailFrom 4) false 1000).2 = [1, 2, 4] := by
  refine ⟨?_, ?_, ?_, ?_⟩ <;>
    simp [FindTotalPages, findUpperBound, findUpperBoundAux, probeFailFrom,
      normCeil, nextProbe]

/-- C5 counterexample: with a pre-triggered cancellation and an empty
collection, both finders return the success value 0 rather than a
cancellation error — the cancellation signal is not sampled before the
page-1 probe or during the exponential phase. -/
theorem claim_C5_cancellation_counterexample :
    (FindTotalPages (okChecker (fun _ => false) : PageChecker Unit) true
        10).1 = .ok 0 ∧
      (FindTotalPagesConcurrent (okChecker (fun _ => false) :
          PageChecker Unit) true 10).1 = .ok 0 := by
  constructor
  · simp [FindTotalPages, okChecker]
  · simp [FindTotalPagesConcurrent, okChecker]

/-- C5 (amended): cancellation is sampled only at the top of each
binary-search round — the page-1 check and the exponential phase run
regardless — so a pre-triggered cancellation makes both finders return a
cancellation error (`ctx.Err()` wrapped in "binary search failed", distinct
from any probe error) exactly when the search reaches the binary phase:
page 1 has data and the growth phase succeeds with an upper bound different
from the ceiling; the error is produced before the first binary probe. -/
theorem claim_C5_cancellation_amended (checker : PageChecker ε) (c ub : Int)
    (h1 : checker 1 = .ok true)
    (hub : (findUpperBound checker (normCeil c)).1 = .ok ub)
    (hne : ub ≠ normCeil c) :
    (FindTotalPages checker true c).1 =
        .error (.wrap "binary search failed" .ctxErr) ∧
      (FindTotalPagesConcurrent checker true c).1 =
        .error (.wrap "binary search failed" .ctxErr) := by
  have hrange := findUpperBound_ok checker (normCeil c) ub hub
  have hub2 : 2 ≤ ub := by
    rcases hrange with h | h
    · exact absurd h hne
    · exact h.1
  rcases hfu : findUpperBound checker (normCeil c) with ⟨res1, tr1⟩
  have hres1 : res1 = .ok ub := by
    rw [hfu] at hub
    exact hub
  subst hres1
  have hbc : binarySearch checker true (ub / 2) ub = (.error .ctxErr, []) := by
    unfold binarySearch
    exact binarySearchGo_cancelled checker (ub / 2) (ub / 2) ub (by omega)
  have hbcc : binarySearchConcurrent checker true (ub / 2) ub =
      (.error .ctxErr, []) := by
    unfold binarySearchConcurrent
    exact binarySearchConcurrentGo_cancelled checker (ub / 2) (ub / 2) ub
      (by omega)
  have hfuc : findUpperBoundConcurrent checker (normCeil c) = (.ok ub, tr1) := by
    rw [findUpperBoundConcurrent_eq]
    exact hfu
  constructor
  · simp [FindTotalPages, h1, hfu, hne, hbc]
  · simp [FindTotalPagesConcurrent, h1, hfuc, hne, hbcc]

/-- Witness for the amended C5 at the boundary probe of boundary 3 and
ceiling 10 (upper bound 4). -/
theorem claim_C5_cancellation_amended_witness :
    (okChecker (boundaryProbe 3) : PageChecker Unit) 1 = .ok true ∧
      (findUpperBound (okChecker (boundaryProbe 3) : PageChecker Unit)
          (normCeil 10)).1 = .ok 4 ∧
      (4 : Int) ≠ normCeil 10 ∧
      (FindTotalPages (okChecker (boundaryProbe 3) : PageChecker Unit) true
          10).1 = .error (.wrap "binary search failed" .ctxErr) ∧
      (FindTotalPagesConcurrent (okChecker (boundaryProbe 3) :
          PageChecker Unit) true 10).1 =
        .error (.wrap "binary search failed" .ctxErr) := by
  have h1 : (okChecker (boundaryProbe 3) : PageChecker Unit) 1 = .ok true := by
    simp [okChecker, boundaryProbe]
  have h2 : (findUpperBound (okChecker (boundaryProbe 3) : PageChecker Unit)
      (normCeil 10)).1 = .ok 4 := by
    simp [findUpperBound, findUpperBoundAux, okChecker, boundaryProbe,
      normCeil, nextProbe]
  have h3 : (4 : Int) ≠ normCeil 10 := by
    simp [normCeil]
  have hmain := claim_C5_cancellation_amended (okChecker (boundaryProbe 3) :
    PageChecker Unit) 10 4 h1 h2 h3
  exact ⟨h1, h2, h3, hmain.1, hmain.2⟩

/-- C6: neither finder ever invokes the probe with a page index greater than
the normalized ceiling, in any phase. -/
theorem claim_C6_ceiling_respect (checker : PageChecker ε) (cancelled : Bool)
    (c q : Int) :
    (q ∈ (FindTotalPages checker cancelled c).2 → q ≤ normCeil c) ∧
    (q ∈ (FindTotalPagesConcurrent checker cancelled c).2 → q ≤ normCeil c) := by
  have hnorm := normCeil_pos c
  constructor
  · intro hq
    rcases hc1 : checker 1 with e | b
    · simp [FindTotalPages, hc1] at hq
      omega
    · cases b
      · rw [findTotalPages_empty checker cancelled c hc1] at hq
        simp at hq
        omega
      · rcases hfu : findUpperBound checker (normCeil c) with ⟨res1, tr1⟩
        have htr1 := findUpperBound_trace checker (normCeil c)
        rw [hfu] at htr1
        simp only at htr1
        cases res1 with
        | error e =>
          simp [FindTotalPages, hc1, hfu] at hq
          rcases hq with hq | hq
          · omega
          · exact (htr1 q hq).2
        | ok ub =>
          by_cases hube : ub = normCeil c
          · simp [FindTotalPages, hc1, hfu, hube] at hq
            rcases hq with hq | hq
            · omega
            · exact (htr1 q hq).2
          · have hubr := findUpperBound_ok checker (normCeil c) ub
              (by rw [hfu])
            have hub2 : 2 ≤ ub ∧ ub ≤ normCeil c := by
              rcases hubr with h | h
              · exact absurd h hube
              · exact h
            rcases hbs : binarySearch checker cancelled (ub / 2) ub
              with ⟨res2, tr2⟩
            have htr2 := binarySearch_trace_range checker cancelled (ub / 2) ub
            rw [hbs] at htr2
            simp only at htr2
            have hq' : q = 1 ∨ q ∈ tr1 ∨ q ∈ tr2 := by
              cases res2 <;> simp [FindTotalPages, hc1, hfu, hube, hbs] at hq <;>
                tauto
            rcases hq' with hq' | hq' | hq'
            · omega
            · exact (htr1 q hq').2
            · have := (htr2 q hq').2
              omega
  · intro hq
    rcases hc1 : checker 1 with e | b
    · simp [FindTotalPagesConcurrent, hc1] at hq
      omega
    · cases b
      · rw [findTotalPagesConcurrent_empty checker cancelled c hc1] at hq
        simp at hq
        omega
      · rcases hfu : findUpperBoundConcurrent checker (normCeil c)
          with ⟨res1, tr1⟩
        have htr1 := findUpperBoundConcurrent_trace checker (normCeil c)
        rw [hfu] at htr1
        simp only at htr1
        cases res1 with
        | error e =>
          simp [FindTotalPagesConcurrent, hc1, hfu] at hq
          rcases hq with hq | hq
          · omega
          · exact (htr1 q hq).2
        | ok ub =>
          by_cases hube : ub = normCeil c
          · simp [FindTotalPagesConcurrent, hc1, hfu, hube] at hq
            rcases hq with hq | hq
            · omega
            · exact (htr1 q hq).2
          · have hubr := findUpperBoundConcurrent_ok checker (normCeil c) ub
              (by rw [hfu])
            have hub2 : 2 ≤ ub ∧ ub ≤ normCeil c := by
              rcases hubr with h | h
              · exact absurd h hube
              · exact h
            rcases hbs : binarySearchConcurrent checker cancelled (ub / 2) ub
              with ⟨res2, tr2⟩
            have htr2 := binarySearchConcurrent_trace_range checker cancelled
              (ub / 2) ub
            rw [hbs] at htr2
            simp only at htr2
            have hq' : q = 1 ∨ q ∈ tr1 ∨ q ∈ tr2 := by
              cases res2 <;>
                simp [FindTotalPagesConcurrent, hc1, hfu, hube, hbs] at hq <;>
                tauto
            rcases hq' with hq' | hq' | hq'
            · omega
            · exact (htr1 q hq').2
            · have := (htr2 q hq').2
              omega

/-- Witness for C6 at an always-empty probe with ceiling 5: both finders
probe only page 1, which respects the ceiling. -/
theorem claim_C6_ceiling_respect_witness :
    (1 : Int) ∈ (FindTotalPages (okChecker (fun _ => false) :
        PageChecker Unit) false 5).2 ∧
      (1 : Int) ∈ (FindTotalPagesConcurrent (okChecker (fun _ => false) :
        PageChecker Unit) false 5).2 ∧
      (1 : Int) ≤ normCeil 5 ∧ (1 : Int) ≤ normCeil 5 := by
  have hm1 : (1 : Int) ∈ (FindTotalPages (okChecker (fun _ => false) :
      PageChecker Unit) false 5).2 := by
    simp [FindTotalPages, okChecker]
  have hm2 : (1 : Int) ∈ (FindTotalPagesConcurrent (okChecker (fun _ => false) :
      PageChecker Unit) false 5).2 := by
    simp [FindTotalPagesConcurrent, okChecker]
  exact ⟨hm1, hm2,
    (claim_C6_ceiling_respect (okChecker (fun _ => false)) false 5 1).1 hm1,
    (claim_C6_ceiling_respect (okChecker (fun _ => false)) false 5 1).2 hm2⟩

/-- C8 counterexample: for boundary 1 with ceiling 1000 the sequential finder
probes pages 1, 2, 1, 2 — four probes, not the two the claim states (the
binary phase re-probes pages 1 and 2). -/
theorem claim_C8_call_count_counterexample :
    (FindTotalPages (okChecker (boundaryProbe 1)) false 1000 :
        FindRes Unit).2 = [1, 2, 1, 2] ∧
      ¬ (FindTotalPages (okChecker (boundaryProbe 1)) false 1000 :
        FindRes Unit).2.length = 2 := by
  have h : (FindTotalPages (okChecker (boundaryProbe 1)) false 1000 :
      FindRes Unit).2 = [1, 2, 1, 2] := by
    simp [FindTotalPages, findUpperBound, findUpperBoundAux, binarySearch,
      binarySearchGo, okChecker, boundaryProbe, normCeil, nextProbe, midpoint]
  constructor
  · exact h
  · rw [h]
    simp

/-- C8 (amended): with the boundary probe and any ceiling of at least 3 (so
that the growth probe of page 2 is unclamped and the ceiling early-return
does not trigger), the sequential finder issues exactly 1 probe for
boundary 0 and exactly 4 probes — not 2 — for boundary 1. -/
theorem claim_C8_call_count_amended (c : Int) (hc : 3 ≤ c) :
    (FindTotalPages (okChecker (boundaryProbe 0)) false c :
        FindRes Unit).2.length = 1 ∧
      (FindTotalPages (okChecker (boundaryProbe 1)) false c :
        FindRes Unit).2.length = 4 := by
  constructor
  · rw [findTotalPages_empty _ false c (by simp [okChecker, boundaryProbe])]
    rfl
  · have hnc : normCeil c = c := by
      unfold normCeil
      rw [if_neg (by omega)]
    have h1 : (okChecker (boundaryProbe 1) : PageChecker Unit) 1 = .ok true := by
      simp [okChecker, boundaryProbe]
    have hfu : (findUpperBound (okChecker (boundaryProbe 1)) c :
        FindRes Unit) = (.ok 2, [2]) := by
      unfold findUpperBound
      rw [findUpperBoundAux.eq_def, dif_pos (by omega : (1 : Int) < c)]
      have hnp : nextProbe c 1 = 2 := by
        unfold nextProbe
        rw [if_neg (by omega)]
        norm_num
      have hcheck : (okChecker (boundaryProbe 1) : PageChecker Unit)
          (nextProbe c 1) = .ok false := by
        rw [hnp]
        simp [okChecker, boundaryProbe]
      rw [hcheck]
      simp [hnp]
    have hbs : (binarySearch (okChecker (boundaryProbe 1)) false 1 2 :
        FindRes Unit) = (.ok 1, [1, 2]) := by
      simp [binarySearch, binarySearchGo, okChecker, boundaryProbe, midpoint]
    have hne : ¬ (2 : Int) = c := by omega
    simp [FindTotalPages, h1, hnc, hfu, hbs, hne]

/-- Witness for the amended C8 at ceiling 1000. -/
theorem claim_C8_call_count_amended_witness :
    (3 : Int) ≤ 1000 ∧
      (FindTotalPages (okChecker (boundaryProbe 0)) false 1000 :
        FindRes Unit).2.length = 1 ∧
      (FindTotalPages (okChecker (boundaryProbe 1)) false 1000 :
        FindRes Unit).2.length = 4 :=
  ⟨by norm_num, (claim_C8_call_count_amended 1000 (by norm_num)).1,
    (claim_C8_call_count_amended 1000 (by norm_num)).2⟩

/-- C10: whenever either finder returns a nil error, the result is 0 exactly
when the page-1 probe reported no data, and otherwise lies between 1 and the
normalized ceiling. -/
theorem claim_C10_result_range (checker : PageChecker ε) (cancelled : Bool)
    (c v : Int) :
    ((FindTotalPages checker cancelled c).1 = .ok v →
      ((v = 0 ↔ checker 1 = .ok false) ∧
        (v = 0 ∨ (1 ≤ v ∧ v ≤ normCeil c)))) ∧
    ((FindTotalPagesConcurrent checker cancelled c).1 = .ok v →
      ((v = 0 ↔ checker 1 = .ok false) ∧
        (v = 0 ∨ (1 ≤ v ∧ v ≤ normCeil c)))) := by
  have hnorm := normCeil_pos c
  constructor
  · intro h
    rcases hc1 : checker 1 with e | b
    · simp [FindTotalPages, hc1] at h
    · cases b
      · rw [findTotalPages_empty checker cancelled c hc1] at h
        simp only at h
        have hv : v = 0 := by simpa using h.symm
        subst hv
        exact ⟨by simp [hc1], Or.inl rfl⟩
      · have hv1 : 1 ≤ v ∧ v ≤ normCeil c := by
          rcases hfu : findUpperBound checker (normCeil c) with ⟨res1, tr1⟩
          cases res1 with
          | error e =>
            simp [FindTotalPages, hc1, hfu] at h
          | ok ub =>
            by_cases hube : ub = normCeil c
            · have hv : v = normCeil c := by
                simp [FindTotalPages, hc1, hfu, hube] at h
                omega
              omega
            · have hubr := findUpperBound_ok checker (normCeil c) ub
                (by rw [hfu])
              have hub2 : 2 ≤ ub ∧ ub ≤ normCeil c := by
                rcases hubr with hx | hx
                · exact absurd hx hube
                · exact hx
              rcases hbs : binarySearch checker cancelled (ub / 2) ub
                with ⟨res2, tr2⟩
              cases res2 with
              | error e =>
                simp [FindTotalPages, hc1, hfu, hube, hbs] at h
              | ok w =>
                have hw : v = w := by
                  simp [FindTotalPages, hc1, hfu, hube, hbs] at h
                  omega
                have hrange := binarySearch_ok_range checker cancelled
                  (ub / 2) ub w (by rw [hbs])
                rcases hrange with hx | hx <;> omega
        refine ⟨?_, Or.inr hv1⟩
        constructor
        · intro h0
          omega
        · intro hfalse
          simp [hc1] at hfalse
  · intro h
    rcases hc1 : checker 1 with e | b
    · simp [FindTotalPagesConcurrent, hc1] at h
    · cases b
      · rw [findTotalPagesConcurrent_empty checker cancelled c hc1] at h
        simp only at h
        have hv : v = 0 := by simpa using h.symm
        subst hv
        exact ⟨by simp [hc1], Or.inl rfl⟩
      · have hv1 : 1 ≤ v ∧ v ≤ normCeil c := by
          rcases hfu : findUpperBoundConcurrent checker (normCeil c)
            with ⟨res1, tr1⟩
          cases res1 with
          | error e =>
            simp [FindTotalPagesConcurrent, hc1, hfu] at h
          | ok ub =>
            by_cases hube : ub = normCeil c
            · have hv : v = normCeil c := by
                simp [FindTotalPagesConcurrent, hc1, hfu, hube] at h
                omega
              omega
            · have hubr := findUpperBoundConcurrent_ok checker (normCeil c) ub
                (by rw [hfu])
              have hub2 : 2 ≤ ub ∧ ub ≤ normCeil c := by
                rcases hubr with hx | hx
                · exact absurd hx hube
                · exact hx
              rcases hbs : binarySearchConcurrent checker cancelled (ub / 2) ub
                with ⟨res2, tr2⟩
              cases res2 with
              | error e =>
                simp [FindTotalPagesConcurrent, hc1, hfu, hube, hbs] at h
              | ok w =>
                have hw : v = w := by
                  simp [FindTotalPagesConcurrent, hc1, hfu, hube, hbs] at h
                  omega
                have hrange := binarySearchConcurrent_ok_range checker
                  cancelled (ub / 2) ub w (by rw [hbs])
                rcases hrange with hx | hx <;> omega
        refine ⟨?_, Or.inr hv1⟩
        constructor
        · intro h0
          omega
        · intro hfalse
          simp [hc1] at hfalse

/-- Witness for C10 at an always-empty probe with ceiling 7: both finders
return 0 with a nil error, and 0 is reported exactly because page 1 was
empty. -/
theorem claim_C10_result_range_witness :
    (FindTotalPages (okChecker (fun _ => false) : PageChecker Unit) false
        7).1 = .ok 0 ∧
      (FindTotalPagesConcurrent (okChecker (fun _ => false) :
        PageChecker Unit) false 7).1 = .ok 0 ∧
      (((0 : Int) = 0 ↔ (okChecker (fun _ => false) : PageChecker Unit) 1 =
          .ok false) ∧
        ((0 : Int) = 0 ∨ (1 ≤ (0 : Int) ∧ (0 : Int) ≤ normCeil 7))) := by
  have h1 : (FindTotalPages (okChecker (fun _ => false) : PageChecker Unit)
      false 7).1 = .ok 0 := by
    rw [findTotalPages_empty _ false 7 (by simp [okChecker])]
  have h2 : (FindTotalPagesConcurrent (okChecker (fun _ => false) :
      PageChecker Unit) false 7).1 = .ok 0 := by
    rw [findTotalPagesConcurrent_empty _ false 7 (by simp [okChecker])]
  exact ⟨h1, h2,
    (claim_C10_result_range (okChecker (fun _ => false)) false 7 0).1 h1⟩

end AmoPagination
